import Mathlib

/-!
Verification development for the pull-through container-registry cache
(`src/api.rs`, `src/storage/s3.rs`).

Strings from the Rust source are modelled as `List Char`; byte buffers as
`List Nat`.  Fallible Rust code (`Result`) is modelled with `Except Err`.
The asynchronous collaborators of the two HTTP handlers (storage backend,
upstream registry client, JSON codec, SHA-256) are modelled as explicit
environment records whose fields hold the outcome each collaborator would
produce during the request; the handlers are then pure functions from the
request and that environment to a response together with the ordered trace
of collaborator operations they perform.
-/

set_option autoImplicit false

/-- Error type covering `api::error::Error` and `storage::Error` as they are
used by the two handlers.  `upstream`/`other` carry an opaque code standing
for the payload of errors whose contents the handlers never inspect. -/
inductive Err where
  | invalidDigest
  | missingContentLength
  | upstreamDataCorrupt
  | objectTooOld (age : Nat)
  | notFound
  | parseError
  | upstream (code : Nat)
  | other (code : Nat)
deriving DecidableEq, Repr

/-- Rust `str::split_once(c)`: the pieces before and after the first
occurrence of `c`, or `none` when `c` does not occur. -/
def splitOnce (c : Char) : List Char → Option (List Char × List Char)
  | [] => none
  | x :: xs =>
    if x == c then some ([], xs)
    else
      match splitOnce c xs with
      | some (h, t) => some (x :: h, t)
      | none => none

/-- Rust `str::split(c).next()`: always `some`, holding the prefix before the
first occurrence of `c` (the whole string when `c` does not occur). -/
def splitNext (c : Char) (s : List Char) : Option (List Char) :=
  match splitOnce c s with
  | some p => some p.1
  | none => some s

/-- Function `api::split_image`, translated clause for clause from the source. -/
def split_image (ns : Option (List Char)) (image default_ns : List Char) :
    List Char × List Char :=
  match ns with
  | some v => (v, image)
  | none =>
    match splitOnce '/' image with
    | some (h, t) => if t.contains '/' then (h, t) else (default_ns, image)
    | none => (default_ns, image)

/-- The namespace resolver as the spec describes it: the head is the part of
the image before the first `'/'`, the remainder the part after it, and the
split applies exactly when the image contains a `'/'` and the remainder
contains a further `'/'`. -/
def resolveSpec (ns : Option (List Char)) (image default_ns : List Char) :
    List Char × List Char :=
  match ns with
  | some v => (v, image)
  | none =>
    let head := image.takeWhile fun y => !(y == '/')
    let rest := (image.dropWhile fun y => !(y == '/')).drop 1
    if image.contains '/' && rest.contains '/' then (head, rest)
    else (default_ns, image)

/-- Path component of a manifest request (`api::ManifestRequest`). -/
structure ManifestRequest where
  image : List Char
  reference : List Char
deriving DecidableEq, Repr

/-- Method `ManifestRequest::storage_path`: elide the namespace segment when the
image's first `'/'`-separated component equals the namespace. -/
def ManifestRequest.storage_path (req : ManifestRequest) (ns : List Char) :
    List Char :=
  match splitNext '/' req.image with
  | some part =>
    if part = ns then "manifests/".toList ++ req.image ++ '/' :: req.reference
    else "manifests/".toList ++ ns ++ '/' :: req.image ++ '/' :: req.reference
  | none => "manifests/".toList ++ ns ++ '/' :: req.image ++ '/' :: req.reference

/-- Path component of a blob request (`api::BlobRequest`). -/
structure BlobRequest where
  image : List Char
  digest : List Char
deriving DecidableEq, Repr

/-- Method `BlobRequest::storage_path`.  Rust `hash.get(..2)` / `hash.get(2..)`
succeed exactly when the hash has at least two characters, hence the two
conditionals; on failure the code falls back to `"_"` and to the whole hash
respectively. -/
def BlobRequest.storage_path (req : BlobRequest) : List Char :=
  let md := (splitOnce ':' req.digest).getD ("_".toList, req.digest)
  let hp := if 2 ≤ md.2.length then md.2.take 2 else "_".toList
  let rest_of_hash := if 2 ≤ md.2.length then md.2.drop 2 else md.2
  "blobs/".toList ++ md.1 ++ '/' :: hp ++ '/' :: rest_of_hash

/-- The value table of the `hex` crate (`val`): `0-9`, `a-f` and `A-F` are
all accepted, exactly as in `hex::decode_to_slice`. -/
def hexVal (c : Char) : Option Nat :=
  let n := c.toNat
  if 48 ≤ n && n ≤ 57 then some (n - 48)
  else if 97 ≤ n && n ≤ 102 then some (n - 97 + 10)
  else if 65 ≤ n && n ≤ 70 then some (n - 65 + 10)
  else none

/-- Decoding of consecutive character pairs into bytes, as
`hex::decode_to_slice` does after its length check. -/
def hexPairsDecode : List Char → Option (List Nat)
  | [] => some []
  | [_] => none
  | a :: b :: rest =>
    match hexVal a, hexVal b, hexPairsDecode rest with
    | some x, some y, some l => some ((x * 16 + y) :: l)
    | _, _, _ => none

/-- Semantics of `hex::decode_to_slice` into a 32-byte buffer: fails unless the input has
exactly 64 characters, then decodes pairwise. -/
def hexDecodeToSlice32 (s : List Char) : Option (List Nat) :=
  if s.length = 64 then hexPairsDecode s else none

/-- The literal `"sha256:"` used by the blob handler. -/
def sha256Tag : List Char := ['s', 'h', 'a', '2', '5', '6', ':']

/-- Rust `str::strip_prefix`, specialised to how the blob handler uses it. -/
def removePre (p s : List Char) : Option (List Char) :=
  if p.isPrefixOf s then some (s.drop p.length) else none

/-- The digest validation at the top of `api::blob` (lines 153-162):
`strip_prefix("sha256:")` followed by `hex::decode_to_slice` into `[0u8; 32]`;
either failure yields `Error::InvalidDigest`. -/
def validateDigest (digest : List Char) : Except Err (List Nat) :=
  match removePre sha256Tag digest with
  | none => Except.error Err.invalidDigest
  | some hex =>
    match hexDecodeToSlice32 hex with
    | none => Except.error Err.invalidDigest
    | some bytes => Except.ok bytes

/-- A lowercase hex character, as the spec's digest grammar demands. -/
def isLowerHexDigit (c : Char) : Bool :=
  let n := c.toNat
  (48 ≤ n && n ≤ 57) || (97 ≤ n && n ≤ 102)

/-- Modelled from the spec's words for claim C3: the exact textual form
`sha256:` followed by exactly 64 lowercase hex characters. -/
def claimDigestForm (s : List Char) : Bool :=
  sha256Tag.isPrefixOf s && (s.drop 7).length == 64 &&
    (s.drop 7).all isLowerHexDigit

/-- The form the code actually accepts: `sha256:` followed by exactly 64
characters that the `hex` crate decodes (either case). -/
def codeDigestForm (s : List Char) : Bool :=
  sha256Tag.isPrefixOf s && (s.drop 7).length == 64 &&
    (s.drop 7).all fun c => (hexVal c).isSome

/-- Per-namespace configuration returned by the upstream client pool
(`Clients::get`): the two invalidation durations (seconds). -/
structure NsConfig where
  manifestInvalidationTime : Nat
  blobInvalidationTime : Nat
deriving DecidableEq, Repr

/-- Structure `storage::Manifest`: payload bytes, media type, optional digest. -/
structure Manifest where
  manifest : List Nat
  mediaType : List Char
  digest : Option (List Char)
deriving DecidableEq, Repr

/-- The observable content of the HTTP response built by
`api::manifest_response`: content type, optional digest header, body. -/
structure ManifestResponse where
  contentType : List Char
  dockerContentDigest : Option (List Char)
  body : List Nat
deriving DecidableEq, Repr

/-- Function `api::manifest_response`. -/
def manifest_response (m : Manifest) : ManifestResponse :=
  { contentType := m.mediaType, dockerContentDigest := m.digest, body := m.manifest }

/-- One collaborator operation performed by a handler, in order. -/
inductive Event where
  | readCache (path : List Char)
  | warnReadFailed (path : List Char)
  | incHit (ns : List Char)
  | incMiss (ns : List Char)
  | authenticate (scope : List Char)
  | fetchManifest (image reference : List Char) (ns : Option (List Char))
  | fetchBlob (image digest : List Char) (ns : Option (List Char))
  | writeCache (path : List Char)
  | deleteCache (path : List Char)
  | logWriteFailed
  | logDeleteFailed
deriving DecidableEq, Repr

/-- Whether an event is an upstream network operation. -/
def Event.isUpstream : Event → Bool
  | Event.authenticate _ => true
  | Event.fetchManifest _ _ _ => true
  | Event.fetchBlob _ _ _ => true
  | _ => false

/-- The authentication scope `repository:<image>:pull`. -/
def pullScope (image : List Char) : List Char :=
  "repository:".toList ++ image ++ ":pull".toList

/-- A cached object as the S3 backend sees it: last-modified timestamp
(seconds) and content bytes. -/
structure StoredObject where
  lastModified : Nat
  content : List Nat
deriving DecidableEq, Repr

/-- Method `storage::s3::Repository::read` (lines 70-79): absent object fails; a
present object whose age (clamped at zero, as `Duration::try_from(..)
.unwrap_or_default()` does) strictly exceeds the invalidation duration fails
with `ObjectTooOld`; otherwise the content is returned. -/
def Repository.read (obj : Option StoredObject) (now invalidation : Nat) :
    Except Err (List Nat) :=
  match obj with
  | none => Except.error Err.notFound
  | some o =>
    let age := now - o.lastModified
    if invalidation < age then Except.error (Err.objectTooOld age)
    else Except.ok o.content

/-- Environment of one `api::manifest` request: the outcome every
collaborator would produce during this request. -/
structure ManifestEnv where
  qstrNs : Option (List Char)
  defaultNs : List Char
  nsLookup : List Char → Except Err NsConfig
  readResult : Except Err (List Nat)
  parse : List Nat → Except Err Manifest
  authResult : Except Err Unit
  fetchWithNs : Except Err (List Nat × List Char × Option (List Char))
  fetchWithoutNs : Except Err (List Nat × List Char × Option (List Char))
  retryPred : Err → Bool
  writeResult : Except Err Unit

/-- The namespace `api::manifest` resolves for its request. -/
def resolvedNsM (req : ManifestRequest) (env : ManifestEnv) : List Char :=
  (split_image env.qstrNs req.image env.defaultNs).1

/-- The tail of `api::manifest` after a successful upstream fetch: build the
`Manifest`, write it back (a failure is only logged), respond 200. -/
def manifestAfterFetch (storage_path : List Char) (env : ManifestEnv)
    (v : List Nat × List Char × Option (List Char)) (t : List Event) :
    Except Err ManifestResponse × List Event :=
  let m : Manifest := ⟨v.1, v.2.1, v.2.2⟩
  (Except.ok (manifest_response m),
    t ++ [Event.writeCache storage_path] ++
      (match env.writeResult with
       | Except.ok _ => []
       | Except.error _ => [Event.logWriteFailed]))

/-- Handler `api::manifest` (lines 90-128), as a pure function from the request and
its collaborator environment to the result and the ordered operation trace. -/
def manifest (req : ManifestRequest) (env : ManifestEnv) :
    Except Err ManifestResponse × List Event :=
  let nsp := (split_image env.qstrNs req.image env.defaultNs).1
  let image := (split_image env.qstrNs req.image env.defaultNs).2
  match env.nsLookup nsp with
  | Except.error e => (Except.error e, [])
  | Except.ok _ =>
    let storage_path := req.storage_path nsp
    match env.readResult with
    | Except.ok body =>
      match env.parse body with
      | Except.error e => (Except.error e, [Event.readCache storage_path])
      | Except.ok m =>
        (Except.ok (manifest_response m),
          [Event.readCache storage_path, Event.incHit nsp])
    | Except.error _ =>
      let t := [Event.readCache storage_path, Event.warnReadFailed storage_path,
        Event.incMiss nsp]
      match env.nsLookup nsp with
      | Except.error e => (Except.error e, t)
      | Except.ok _ =>
        match env.authResult with
        | Except.error e => (Except.error e, t ++ [Event.authenticate (pullScope image)])
        | Except.ok _ =>
          let t := t ++ [Event.authenticate (pullScope image),
            Event.fetchManifest image req.reference (some nsp)]
          match env.fetchWithNs with
          | Except.ok v => manifestAfterFetch storage_path env v t
          | Except.error e =>
            if env.retryPred e then
              match env.fetchWithoutNs with
              | Except.ok v =>
                manifestAfterFetch storage_path env v
                  (t ++ [Event.fetchManifest image req.reference none])
              | Except.error e2 =>
                (Except.error e2, t ++ [Event.fetchManifest image req.reference none])
            else (Except.error e, t)

/-- The upstream blob response: declared size and the chunk sequence its
stream would yield. -/
structure BlobUpstreamResponse where
  size : Option Nat
  chunks : List (Except Err (List Nat))

/-- Environment of one `api::blob` request. -/
structure BlobEnv where
  qstrNs : Option (List Char)
  defaultNs : List Char
  nsLookup : List Char → Except Err NsConfig
  readResult : Except Err (List Nat)
  authResult : Except Err Unit
  fetchWithNs : Except Err BlobUpstreamResponse
  fetchWithoutNs : Except Err BlobUpstreamResponse
  retryPred : Err → Bool
  sha256 : List Nat → List Nat
  writeResult : Except Err Unit
  deleteResult : Except Err Unit

/-- The namespace `api::blob` resolves for its request. -/
def resolvedNsB (req : BlobRequest) (env : BlobEnv) : List Char :=
  (split_image env.qstrNs req.image env.defaultNs).1

/-- The response body of `api::blob`: either the cached bytes or the fan-out
channel's message sequence together with the declared length. -/
inductive BlobResponse where
  | cached (body : List Nat)
  | proxied (len : Nat) (body : List (Except Err (List Nat)))

/-- The producer loop of the fan-out pipeline (lines 191-221), with the bytes
hashed so far as accumulator: each good chunk is republished after updating
the running hash; an upstream error is republished and ends the loop; on
clean end of stream the finalized hash is compared with the wanted digest and
a terminal `UpstreamDataCorrupt` message is published on mismatch.  The
broadcast channel delivers this sequence identically to both consumers. -/
def producerGo (sha : List Nat → List Nat) (wanted hashed : List Nat) :
    List (Except Err (List Nat)) → List (Except Err (List Nat))
  | [] =>
    if sha hashed = wanted then []
    else [Except.error Err.upstreamDataCorrupt]
  | Except.ok v :: rest => Except.ok v :: producerGo sha wanted (hashed ++ v) rest
  | Except.error e :: _ => [Except.error e]

/-- The messages the producer publishes for a given upstream chunk
sequence. -/
def producer (sha : List Nat → List Nat) (wanted : List Nat)
    (chunks : List (Except Err (List Nat))) : List (Except Err (List Nat)) :=
  producerGo sha wanted [] chunks

/-- The persistence consumer spawned by `api::blob` (lines 224-235): write
the broadcast stream to storage; if the write fails, log it and issue a
delete, whose own failure is only logged. -/
def blobPersistConsumer (path : List Char) (writeResult deleteResult : Except Err Unit) :
    List Event :=
  match writeResult with
  | Except.ok _ => [Event.writeCache path]
  | Except.error _ =>
    match deleteResult with
    | Except.ok _ => [Event.writeCache path, Event.logWriteFailed, Event.deleteCache path]
    | Except.error _ =>
      [Event.writeCache path, Event.logWriteFailed, Event.deleteCache path,
        Event.logDeleteFailed]

/-- The tail of `api::blob` after a successful upstream fetch: require a
declared length, then wire up the fan-out and return the proxied stream while
the persistence consumer runs. -/
def blobAfterFetch (storage_path : List Char) (env : BlobEnv) (wanted : List Nat)
    (resp : BlobUpstreamResponse) (t : List Event) :
    Except Err BlobResponse × List Event :=
  match resp.size with
  | none => (Except.error Err.missingContentLength, t)
  | some len =>
    (Except.ok (BlobResponse.proxied len (producer env.sha256 wanted resp.chunks)),
      t ++ blobPersistConsumer storage_path env.writeResult env.deleteResult)

/-- Handler `api::blob` (lines 149-238), as a pure function from the request and its
collaborator environment to the result and the ordered operation trace (the
background persistence consumer's operations appended at the end). -/
def blob (req : BlobRequest) (env : BlobEnv) :
    Except Err BlobResponse × List Event :=
  match validateDigest req.digest with
  | Except.error _ => (Except.error Err.invalidDigest, [])
  | Except.ok wanted =>
    let nsp := (split_image env.qstrNs req.image env.defaultNs).1
    let image := (split_image env.qstrNs req.image env.defaultNs).2
    let storage_path := req.storage_path
    match env.nsLookup nsp with
    | Except.error e => (Except.error e, [])
    | Except.ok _ =>
      match env.readResult with
      | Except.ok body =>
        (Except.ok (BlobResponse.cached body),
          [Event.readCache storage_path, Event.incHit nsp])
      | Except.error _ =>
        let t := [Event.readCache storage_path, Event.warnReadFailed storage_path,
          Event.incMiss nsp]
        match env.nsLookup nsp with
        | Except.error e => (Except.error e, t)
        | Except.ok _ =>
          match env.authResult with
          | Except.error e => (Except.error e, t ++ [Event.authenticate (pullScope image)])
          | Except.ok _ =>
            let t := t ++ [Event.authenticate (pullScope image),
              Event.fetchBlob image req.digest (some nsp)]
            match env.fetchWithNs with
            | Except.ok resp => blobAfterFetch storage_path env wanted resp t
            | Except.error e =>
              if env.retryPred e then
                match env.fetchWithoutNs with
                | Except.ok resp =>
                  blobAfterFetch storage_path env wanted resp
                    (t ++ [Event.fetchBlob image req.digest none])
                | Except.error e2 =>
                  (Except.error e2, t ++ [Event.fetchBlob image req.digest none])
              else (Except.error e, t)

theorem splitOnce_spec (c : Char) (s : List Char) :
    splitOnce c s =
      if c ∈ s then
        some (s.takeWhile (fun y => !(y == c)),
          (s.dropWhile (fun y => !(y == c))).tail)
      else none := by
  induction s with
  | nil => simp [splitOnce]
  | cons a as ih =>
    by_cases hac : a = c
    · subst hac
      simp [splitOnce, List.takeWhile_cons, List.dropWhile_cons]
    · have hac' : (a == c) = false := by simp [hac]
      have hmem : c ∈ a :: as ↔ c ∈ as := by
        simp [List.mem_cons, Ne.symm hac]
      simp only [splitOnce, hac', Bool.false_eq_true, if_false, ih,
        List.takeWhile_cons, List.dropWhile_cons, hac', Bool.not_false,
        if_true, hmem]
      by_cases h : c ∈ as <;> simp [h]

theorem splitNext_eq (c : Char) (s : List Char) :
    splitNext c s = some (s.takeWhile fun y => !(y == c)) := by
  rw [splitNext, splitOnce_spec]
  by_cases h : c ∈ s
  · simp [h]
  · have hall : ∀ x ∈ s, (fun y => !(y == c)) x = true := by
      intro x hx
      simp only [Bool.not_eq_true', beq_eq_false_iff_ne]
      exact fun he => h (he ▸ hx)
    simp [h, List.takeWhile_eq_self_iff.mpr hall]

theorem splitOnce_of_not_mem (c : Char) (s : List Char) (h : c ∉ s) :
    splitOnce c s = none := by
  rw [splitOnce_spec]
  simp [h]

theorem splitOnce_append (c : Char) (pre post : List Char) (h : c ∉ pre) :
    splitOnce c (pre ++ c :: post) = some (pre, post) := by
  induction pre with
  | nil => simp [splitOnce]
  | cons a as ih =>
    have hne : (a == c) = false := by
      simp only [beq_eq_false_iff_ne]
      exact fun he => h (by simp [he])
    have ih' := ih fun hm => h (List.mem_cons_of_mem a hm)
    simp only [List.cons_append, splitOnce, hne, Bool.false_eq_true, if_false,
      List.append_eq, ih']

theorem hexPairsDecode_isSome : ∀ s : List Char,
    (hexPairsDecode s).isSome =
      (decide (s.length % 2 = 0) && s.all fun c => (hexVal c).isSome)
  | [] => by simp [hexPairsDecode]
  | [a] => by simp [hexPairsDecode]
  | a :: b :: rest => by
    have ih := hexPairsDecode_isSome rest
    have hlen : (a :: b :: rest).length % 2 = rest.length % 2 := by
      simp only [List.length_cons]
      omega
    rw [hexPairsDecode]
    cases ha : hexVal a <;> cases hb : hexVal b <;>
      cases hr : hexPairsDecode rest <;>
      simp_all [List.all_cons, Bool.and_comm, Bool.and_assoc, Bool.and_left_comm]

theorem producerGo_ok_append (sha : List Nat → List Nat) (wanted : List Nat)
    (good : List (List Nat)) :
    ∀ (hashed : List Nat) (l : List (Except Err (List Nat))),
      producerGo sha wanted hashed (good.map Except.ok ++ l) =
        good.map Except.ok ++ producerGo sha wanted (hashed ++ good.flatten) l := by
  induction good with
  | nil => intro hashed l; simp
  | cons a as ih =>
    intro hashed l
    simp only [List.map_cons, List.cons_append, producerGo, List.append_eq, ih,
      List.flatten_cons, List.append_assoc]

/-- C2: the namespace resolver `split_image` is a total, deterministic
function; an explicit namespace yields `(ns, image)` unchanged; otherwise,
when the image splits at its first `'/'` into a head and a remainder that
itself contains a further `'/'`, the result is `(head, remainder)`; in every
other case it is `(default_ns, image)` unchanged.  Stated as equality with
`resolveSpec`, the claim's own formulation in terms of take/drop at the
first `'/'`. -/
theorem C2_split_image_matches_spec (ns : Option (List Char))
    (image default_ns : List Char) :
    split_image ns image default_ns = resolveSpec ns image default_ns := by
  cases ns with
  | some v => rfl
  | none =>
    simp only [split_image, resolveSpec, splitOnce_spec, List.drop_one]
    by_cases h : '/' ∈ image
    · have hc : image.contains '/' = true := List.elem_iff.mpr h
      simp [h, hc]
    · have hc : image.contains '/' = false := by
        rw [Bool.eq_false_iff]
        exact fun hh => h (List.elem_iff.mp hh)
      simp [h, hc]

/-- C8: the manifest storage key is `manifests/<image>/<reference>` exactly
when the image's first `'/'`-separated path component equals the resolved
namespace, and `manifests/<namespace>/<image>/<reference>` (namespace
included exactly once) in every other case. -/
theorem C8_manifest_storage_path (req : ManifestRequest) (ns : List Char) :
    req.storage_path ns =
      if req.image.takeWhile (fun y => !(y == '/')) = ns
      then "manifests/".toList ++ req.image ++ '/' :: req.reference
      else "manifests/".toList ++ ns ++ '/' :: req.image ++ '/' :: req.reference := by
  rw [ManifestRequest.storage_path, splitNext_eq]

/-- C9: the blob storage key depends on the digest alone (two requests for
different images but the same digest get the same key); for a digest of the
form `<algorithm>:<hash>` with a hash of at least two characters it is
`blobs/<algorithm>/<first two>/<rest>`; a shorter hash puts `_` in the bucket
position; a digest with no `:` at all falls back to `_` for the algorithm,
always producing a path of the same four-segment shape. -/
theorem C9_blob_storage_path :
    (∀ img1 img2 d : List Char,
        BlobRequest.storage_path ⟨img1, d⟩ = BlobRequest.storage_path ⟨img2, d⟩) ∧
    (∀ alg hash : List Char, ':' ∉ alg → 2 ≤ hash.length →
        BlobRequest.storage_path ⟨[], alg ++ ':' :: hash⟩ =
          "blobs/".toList ++ alg ++ '/' :: hash.take 2 ++ '/' :: hash.drop 2) ∧
    (∀ alg hash : List Char, ':' ∉ alg → hash.length < 2 →
        BlobRequest.storage_path ⟨[], alg ++ ':' :: hash⟩ =
          "blobs/".toList ++ alg ++ '/' :: '_' :: '/' :: hash) ∧
    (∀ d : List Char, ':' ∉ d →
        BlobRequest.storage_path ⟨[], d⟩ =
          "blobs/".toList ++ '_' :: '/' ::
            ((if 2 ≤ d.length then d.take 2 else ['_']) ++ '/' ::
              (if 2 ≤ d.length then d.drop 2 else d))) := by
  refine ⟨fun img1 img2 d => rfl, ?_, ?_, ?_⟩
  · intro alg hash h1 h2
    simp [BlobRequest.storage_path, splitOnce_append ':' alg hash h1, h2]
  · intro alg hash h1 h2
    have h2' : ¬ 2 ≤ hash.length := by omega
    simp [BlobRequest.storage_path, splitOnce_append ':' alg hash h1, h2']
  · intro d h
    by_cases h2 : 2 ≤ d.length <;>
      simp [BlobRequest.storage_path, splitOnce_of_not_mem ':' d h, h2]

/-- C1: for every chunk sequence yielded by the upstream stream, the fan-out
producer publishes on the broadcast channel (hence to both consumers, in
order) exactly the chunks it read: a clean all-good stream is republished
unchanged, followed by a terminal `UpstreamDataCorrupt` error exactly when
the finalized SHA-256 of all published chunks differs from the requested
digest bytes (so the terminal error comes after every good chunk); a stream
that errors after a good prefix yields that prefix, then the error, then
nothing. -/
theorem C1_producer_fanout (sha : List Nat → List Nat) (wanted : List Nat)
    (good : List (List Nat)) :
    producer sha wanted (good.map Except.ok) =
      good.map Except.ok ++
        (if sha good.flatten = wanted then []
         else [Except.error Err.upstreamDataCorrupt]) ∧
    ∀ (e : Err) (rest : List (Except Err (List Nat))),
      producer sha wanted (good.map Except.ok ++ Except.error e :: rest) =
        good.map Except.ok ++ [Except.error e] := by
  constructor
  · have h := producerGo_ok_append sha wanted good [] []
    simpa [producer, producerGo] using h
  · intro e rest
    have h := producerGo_ok_append sha wanted good [] (Except.error e :: rest)
    simpa [producer, producerGo] using h

/-- C4: the persistence consumer of the blob fan-out issues a delete of the
blob's storage path exactly when its storage write fails (for any error,
including the terminal corruption error); a failing delete only adds a log
entry and causes no further operation; a successful write is never followed
by a delete. -/
theorem C4_blob_write_failure_delete (path : List Char) :
    (∀ writeResult deleteResult : Except Err Unit,
        (Event.deleteCache path ∈ blobPersistConsumer path writeResult deleteResult ↔
          writeResult.isOk = false)) ∧
    (∀ deleteResult : Except Err Unit,
        blobPersistConsumer path (Except.ok ()) deleteResult =
          [Event.writeCache path]) ∧
    (∀ e : Err,
        blobPersistConsumer path (Except.error e) (Except.ok ()) =
          [Event.writeCache path, Event.logWriteFailed, Event.deleteCache path]) ∧
    (∀ e d : Err,
        blobPersistConsumer path (Except.error e) (Except.error d) =
          [Event.writeCache path, Event.logWriteFailed, Event.deleteCache path,
            Event.logDeleteFailed]) := by
  refine ⟨?_, fun _ => rfl, fun _ => rfl, fun _ _ => rfl⟩
  intro writeResult deleteResult
  cases writeResult <;> cases deleteResult <;>
    simp [blobPersistConsumer, Except.isOk, Except.toBool]

/-- A digest string the claim's grammar rejects (uppercase hex) but the code
accepts: `sha256:` followed by 64 `'A'`s. -/
def badDigest : List Char := sha256Tag ++ List.replicate 64 'A'

/-- C3 counterexample: `validateDigest` accepts `sha256:` + 64 uppercase
`'A'`s, although that string is not of the claimed exact form `sha256:` + 64
lowercase hex characters — `hex::decode_to_slice` decodes either case, so
validation does not fail on every non-lowercase string. -/
theorem C3_counterexample :
    (validateDigest badDigest).isOk = true ∧ claimDigestForm badDigest = false := by
  constructor <;> decide

/-- Characterisation: `validateDigest` succeeds exactly when the `sha256:` prefix is present,
the remainder has 64 characters, and those characters decode pairwise. -/
theorem validateDigest_isOk (d : List Char) :
    (validateDigest d).isOk =
      (sha256Tag.isPrefixOf d && ((d.drop 7).length == 64) &&
        (hexPairsDecode (d.drop 7)).isSome) := by
  by_cases hp : sha256Tag.isPrefixOf d
  · have hrem : removePre sha256Tag d = some (d.drop 7) := by
      unfold removePre; rw [if_pos hp]; rfl
    by_cases hl : (d.drop 7).length = 64
    · have hdec : hexDecodeToSlice32 (d.drop 7) = hexPairsDecode (d.drop 7) := by
        unfold hexDecodeToSlice32; rw [if_pos hl]
      have hl' : ((d.drop 7).length == 64) = true := by simpa using hl
      simp only [validateDigest, hrem, hdec, hp, hl', Bool.true_and]
      cases h : hexPairsDecode (d.drop 7) <;> simp [Except.isOk, Except.toBool]
    · have hdec : hexDecodeToSlice32 (d.drop 7) = none := by
        unfold hexDecodeToSlice32; rw [if_neg hl]
      have hl' : ((d.drop 7).length == 64) = false := by simpa using hl
      simp only [validateDigest, hrem, hdec, hp, hl', Bool.true_and,
        Bool.false_and, Except.isOk, Except.toBool]
  · have hp' : sha256Tag.isPrefixOf d = false := by
      rw [Bool.eq_false_iff]; exact hp
    have hrem : removePre sha256Tag d = none := by
      unfold removePre; rw [if_neg hp]
    simp only [validateDigest, hrem, hp', Bool.false_and, Except.isOk,
      Except.toBool]

/-- C3 as amended: the blob handler fails with `InvalidDigest` before any
storage or upstream operation if and only if the digest string is not of the
form `sha256:` followed by exactly 64 hex characters (of either case, as the
`hex` crate decodes them); every string of that form passes validation. -/
theorem C3_amended_validate :
    (∀ d : List Char, (validateDigest d).isOk = codeDigestForm d) ∧
    (∀ (req : BlobRequest) (env : BlobEnv),
        (validateDigest req.digest).isOk = false →
        blob req env = (Except.error Err.invalidDigest, [])) := by
  constructor
  · intro d
    rw [validateDigest_isOk, codeDigestForm]
    by_cases hl : (d.drop 7).length = 64
    · have heven : decide ((d.drop 7).length % 2 = 0) = true := by rw [hl]; decide
      have hiso := hexPairsDecode_isSome (d.drop 7)
      rw [heven, Bool.true_and] at hiso
      rw [hiso]
    · have hl' : ((d.drop 7).length == 64) = false := by simpa using hl
      rw [hl']
      simp
  · intro req env h
    cases hv : validateDigest req.digest with
    | ok w => rw [hv] at h; simp [Except.isOk, Except.toBool] at h
    | error e => simp [blob, hv]

/-- Stub environment used to exercise the blob handler on concrete inputs. -/
def benvStub : BlobEnv :=
  { qstrNs := none
    defaultNs := "docker.io".toList
    nsLookup := fun _ => Except.ok ⟨300, 600⟩
    readResult := Except.error Err.notFound
    authResult := Except.ok ()
    fetchWithNs := Except.error (Err.upstream 0)
    fetchWithoutNs := Except.error (Err.upstream 0)
    retryPred := fun _ => false
    sha256 := fun _ => []
    writeResult := Except.ok ()
    deleteResult := Except.ok () }

/-- Witness for the amended C3: a malformed digest makes the blob handler
fail with `InvalidDigest` before performing any operation. -/
theorem C3_amended_witness :
    blob ⟨"library/busybox".toList, "oops".toList⟩ benvStub =
      (Except.error Err.invalidDigest, []) :=
  C3_amended_validate.2 ⟨"library/busybox".toList, "oops".toList⟩ benvStub (by decide)

/-- Concrete manifest request used on concrete runs. -/
def reqStub : ManifestRequest := ⟨"library/busybox".toList, "latest".toList⟩

/-- Concrete manifest environment: the cache read succeeds on a fresh object
but its payload does not deserialize as a `Manifest`. -/
def menvStub : ManifestEnv :=
  { qstrNs := some ("docker.io".toList)
    defaultNs := "docker.io".toList
    nsLookup := fun _ => Except.ok ⟨300, 600⟩
    readResult := Repository.read (some ⟨0, [123]⟩) 10 300
    parse := fun _ => Except.error Err.parseError
    authResult := Except.ok ()
    fetchWithNs := Except.error (Err.upstream 0)
    fetchWithoutNs := Except.error (Err.upstream 0)
    retryPred := fun _ => false
    writeResult := Except.ok () }

/-- C6: a cached object whose age (now minus last-modified, clamped at zero)
strictly exceeds the invalidation duration makes `Repository.read` fail
rather than return the object; and both handlers treat every read failure
identically — the result and trace do not depend on which error the read
produced, the failure is logged, and the miss path (miss counter, upstream
fetch) is taken, so no cache-related distinction reaches the caller. -/
theorem C6_stale_read_uniform_miss :
    (∀ (o : StoredObject) (now inv : Nat), inv < now - o.lastModified →
        Repository.read (some o) now inv =
          Except.error (Err.objectTooOld (now - o.lastModified))) ∧
    (∀ (req : ManifestRequest) (env : ManifestEnv) (e1 e2 : Err),
        manifest req { env with readResult := Except.error e1 } =
          manifest req { env with readResult := Except.error e2 }) ∧
    (∀ (req : BlobRequest) (env : BlobEnv) (e1 e2 : Err),
        blob req { env with readResult := Except.error e1 } =
          blob req { env with readResult := Except.error e2 }) ∧
    (∀ (req : ManifestRequest) (env : ManifestEnv) (e : Err) (cfg : NsConfig),
        env.nsLookup (resolvedNsM req env) = Except.ok cfg →
        env.readResult = Except.error e →
        Event.warnReadFailed (req.storage_path (resolvedNsM req env)) ∈
            (manifest req env).2 ∧
          Event.incMiss (resolvedNsM req env) ∈ (manifest req env).2) := by
  refine ⟨?_, ?_, ?_, ?_⟩
  · intro o now inv h
    simp [Repository.read, h]
  · intro req env e1 e2
    rfl
  · intro req env e1 e2
    rfl
  · intro req env e cfg hcfg hr
    simp only [resolvedNsM] at hcfg ⊢
    simp only [manifest, hcfg, hr]
    cases hA : env.authResult with
    | error eA => simp
    | ok u =>
      cases hF : env.fetchWithNs with
      | ok v => simp [manifestAfterFetch]
      | error eF =>
        by_cases hRP : env.retryPred eF
        · cases hG : env.fetchWithoutNs with
          | ok v => simp [hRP, manifestAfterFetch]
          | error e2 => simp [hRP]
        · simp [hRP]

/-- C10: when the cache read succeeds but the cached payload fails to
deserialize as a `Manifest`, the manifest handler returns that error to the
caller: it performs no upstream operation and increments neither the hit nor
the miss counter. -/
theorem C10_manifest_parse_failure :
    ∀ (req : ManifestRequest) (env : ManifestEnv) (body : List Nat) (e : Err)
      (cfg : NsConfig),
      env.nsLookup (resolvedNsM req env) = Except.ok cfg →
      env.readResult = Except.ok body →
      env.parse body = Except.error e →
      (manifest req env).1 = Except.error e ∧
        (∀ ev ∈ (manifest req env).2, ev.isUpstream = false) ∧
        (∀ n : List Char, Event.incHit n ∉ (manifest req env).2) ∧
        (∀ n : List Char, Event.incMiss n ∉ (manifest req env).2) := by
  intro req env body e cfg hcfg hr hp
  simp only [resolvedNsM] at hcfg
  simp only [manifest, hcfg, hr, hp]
  simp [Event.isUpstream]

/-- Witness for C10: on a concrete fresh cached object whose payload does
not parse, the handler surfaces the parse error. -/
theorem C10_witness : (manifest reqStub menvStub).1 = Except.error Err.parseError :=
  (C10_manifest_parse_failure reqStub menvStub [123] Err.parseError ⟨300, 600⟩
    rfl rfl rfl).1

/-- Witness for C6: a concrete object of age 500 with invalidation 300 makes
the storage read fail with `ObjectTooOld`. -/
theorem C6_witness :
    Repository.read (some ⟨0, [1]⟩) 500 300 = Except.error (Err.objectTooOld 500) :=
  C6_stale_read_uniform_miss.1 ⟨0, [1]⟩ 500 300 (by decide)

/-- C7 counterexample: on a request whose cache probe succeeds (fresh object,
read returns its bytes) but whose payload does not deserialize, the manifest
handler does not return the cached content — it returns the parse error —
so "probe succeeds implies the handler returns the cached content" fails as
stated. -/
theorem C7_counterexample :
    menvStub.readResult = Except.ok [123] ∧
      (manifest reqStub menvStub).1 = Except.error Err.parseError :=
  ⟨rfl, rfl⟩

/-- C7 as amended: when the cache probe succeeds, neither handler ever
performs an upstream operation (authenticate or fetch); the blob handler
returns the cached content, and the manifest handler returns the cached
content provided it deserializes as a `Manifest` (a payload that does not
parse yields an error, still without contacting upstream). -/
theorem C7_amended_cache_hit :
    (∀ (req : ManifestRequest) (env : ManifestEnv) (body : List Nat),
        env.readResult = Except.ok body →
        ∀ ev ∈ (manifest req env).2, ev.isUpstream = false) ∧
    (∀ (req : BlobRequest) (env : BlobEnv) (body : List Nat),
        env.readResult = Except.ok body →
        ∀ ev ∈ (blob req env).2, ev.isUpstream = false) ∧
    (∀ (req : ManifestRequest) (env : ManifestEnv) (body : List Nat)
        (cfg : NsConfig) (m : Manifest),
        env.nsLookup (resolvedNsM req env) = Except.ok cfg →
        env.readResult = Except.ok body →
        env.parse body = Except.ok m →
        (manifest req env).1 = Except.ok (manifest_response m)) ∧
    (∀ (req : BlobRequest) (env : BlobEnv) (body : List Nat)
        (cfg : NsConfig) (w : List Nat),
        validateDigest req.digest = Except.ok w →
        env.nsLookup (resolvedNsB req env) = Except.ok cfg →
        env.readResult = Except.ok body →
        (blob req env).1 = Except.ok (BlobResponse.cached body)) := by
  refine ⟨?_, ?_, ?_, ?_⟩
  · intro req env body hr
    cases hcfg : env.nsLookup ((split_image env.qstrNs req.image env.defaultNs).1) with
    | error e => simp [manifest, hcfg]
    | ok cfg =>
      cases hp : env.parse body <;>
        simp [manifest, hcfg, hr, hp, Event.isUpstream]
  · intro req env body hr
    cases hv : validateDigest req.digest with
    | error e => simp [blob, hv]
    | ok w =>
      cases hcfg : env.nsLookup ((split_image env.qstrNs req.image env.defaultNs).1) with
      | error e => simp [blob, hv, hcfg]
      | ok cfg => simp [blob, hv, hcfg, hr, Event.isUpstream]
  · intro req env body cfg m hcfg hr hp
    simp only [resolvedNsM] at hcfg
    simp only [manifest, hcfg, hr, hp]
  · intro req env body cfg w hv hcfg hr
    simp only [resolvedNsB] at hcfg
    simp only [blob, hv, hcfg, hr]

/-- Concrete blob environment whose cache read succeeds. -/
def benvHit : BlobEnv := { benvStub with readResult := Except.ok [5, 6] }

/-- A well-formed concrete digest: `sha256:` + 64 `'a'`s. -/
def dGood : List Char := sha256Tag ++ List.replicate 64 'a'

/-- Witness for the amended C7: a concrete blob cache hit returns the cached
bytes (and, by the theorem, performs no upstream operation). -/
theorem C7_amended_witness :
    (blob ⟨"library/busybox".toList, dGood⟩ benvHit).1 =
      Except.ok (BlobResponse.cached [5, 6]) :=
  C7_amended_cache_hit.2.2.2 ⟨"library/busybox".toList, dGood⟩ benvHit [5, 6]
    ⟨300, 600⟩ (List.replicate 32 170) rfl rfl rfl

/-- The image `api::manifest` resolves for its request. -/
def resolvedImgM (req : ManifestRequest) (env : ManifestEnv) : List Char :=
  (split_image env.qstrNs req.image env.defaultNs).2

/-- The image `api::blob` resolves for its request. -/
def resolvedImgB (req : BlobRequest) (env : BlobEnv) : List Char :=
  (split_image env.qstrNs req.image env.defaultNs).2

/-- Trace of a manifest cache miss up to and including the first upstream
fetch (withnamespace). -/
def missTraceM (req : ManifestRequest) (env : ManifestEnv) : List Event :=
  [Event.readCache (req.storage_path (resolvedNsM req env)),
   Event.warnReadFailed (req.storage_path (resolvedNsM req env)),
   Event.incMiss (resolvedNsM req env),
   Event.authenticate (pullScope (resolvedImgM req env)),
   Event.fetchManifest (resolvedImgM req env) req.reference (some (resolvedNsM req env))]

/-- Trace of a blob cache miss up to and including the first upstream fetch
(with namespace). -/
def missTraceB (req : BlobRequest) (env : BlobEnv) : List Event :=
  [Event.readCache req.storage_path,
   Event.warnReadFailed req.storage_path,
   Event.incMiss (resolvedNsB req env),
   Event.authenticate (pullScope (resolvedImgB req env)),
   Event.fetchBlob (resolvedImgB req env) req.digest (some (resolvedNsB req env))]

/-- C5: on a cache miss, both handlers first fetch from upstream with the
resolved namespace; exactly when that first attempt fails with an error the
pluggable `should_retry_without_namespace` predicate accepts, one retry is
made with the namespace omitted, whose outcome (success or error) is used
as-is; a first-attempt error the predicate rejects is surfaced directly,
with no namespace-less fetch ever issued. -/
theorem C5_retry_without_namespace :
    (∀ (req : ManifestRequest) (env : ManifestEnv) (cfg : NsConfig) (e0 : Err),
      env.nsLookup (resolvedNsM req env) = Except.ok cfg →
      env.readResult = Except.error e0 →
      env.authResult = Except.ok () →
      (∀ v, env.fetchWithNs = Except.ok v →
        manifest req env =
          manifestAfterFetch (req.storage_path (resolvedNsM req env)) env v
            (missTraceM req env) ∧
        Event.fetchManifest (resolvedImgM req env) req.reference none ∉
          (manifest req env).2) ∧
      (∀ e, env.fetchWithNs = Except.error e → env.retryPred e = true →
        (∀ v, env.fetchWithoutNs = Except.ok v →
          manifest req env =
            manifestAfterFetch (req.storage_path (resolvedNsM req env)) env v
              (missTraceM req env ++
                [Event.fetchManifest (resolvedImgM req env) req.reference none])) ∧
        (∀ e2, env.fetchWithoutNs = Except.error e2 →
          manifest req env =
            (Except.error e2,
              missTraceM req env ++
                [Event.fetchManifest (resolvedImgM req env) req.reference none]))) ∧
      (∀ e, env.fetchWithNs = Except.error e → env.retryPred e = false →
        manifest req env = (Except.error e, missTraceM req env) ∧
        Event.fetchManifest (resolvedImgM req env) req.reference none ∉
          (manifest req env).2)) ∧
    (∀ (req : BlobRequest) (env : BlobEnv) (cfg : NsConfig) (e0 : Err)
        (w : List Nat),
      validateDigest req.digest = Except.ok w →
      env.nsLookup (resolvedNsB req env) = Except.ok cfg →
      env.readResult = Except.error e0 →
      env.authResult = Except.ok () →
      (∀ resp, env.fetchWithNs = Except.ok resp →
        blob req env =
          blobAfterFetch req.storage_path env w resp (missTraceB req env) ∧
        Event.fetchBlob (resolvedImgB req env) req.digest none ∉
          (blob req env).2) ∧
      (∀ e, env.fetchWithNs = Except.error e → env.retryPred e = true →
        (∀ resp, env.fetchWithoutNs = Except.ok resp →
          blob req env =
            blobAfterFetch req.storage_path env w resp
              (missTraceB req env ++
                [Event.fetchBlob (resolvedImgB req env) req.digest none])) ∧
        (∀ e2, env.fetchWithoutNs = Except.error e2 →
          blob req env =
            (Except.error e2,
              missTraceB req env ++
                [Event.fetchBlob (resolvedImgB req env) req.digest none]))) ∧
      (∀ e, env.fetchWithNs = Except.error e → env.retryPred e = false →
        blob req env = (Except.error e, missTraceB req env) ∧
        Event.fetchBlob (resolvedImgB req env) req.digest none ∉
          (blob req env).2)) := by
  constructor
  · intro req env cfg e0 hcfg hr ha
    simp only [resolvedNsM, resolvedImgM, missTraceM] at *
    refine ⟨?_, ?_, ?_⟩
    · intro v hv
      constructor
      · simp [manifest, hcfg, hr, ha, hv]
      · cases hw : env.writeResult <;>
          simp [manifest, hcfg, hr, ha, hv, manifestAfterFetch, hw]
    · intro e hE hRP
      constructor
      · intro v hv
        simp [manifest, hcfg, hr, ha, hE, hRP, hv]
      · intro e2 hv
        simp [manifest, hcfg, hr, ha, hE, hRP, hv]
    · intro e hE hRP
      refine ⟨?_, ?_⟩ <;> simp [manifest, hcfg, hr, ha, hE, hRP]
  · intro req env cfg e0 w hv0 hcfg hr ha
    simp only [resolvedNsB, resolvedImgB, missTraceB] at *
    refine ⟨?_, ?_, ?_⟩
    · intro resp hv
      constructor
      · simp [blob, hv0, hcfg, hr, ha, hv]
      · cases hs : resp.size <;> cases hw : env.writeResult <;>
          cases hd : env.deleteResult <;>
          simp [blob, hv0, hcfg, hr, ha, hv, blobAfterFetch,
            blobPersistConsumer, hs, hw, hd]
    · intro e hE hRP
      constructor
      · intro resp hv
        simp [blob, hv0, hcfg, hr, ha, hE, hRP, hv]
      · intro e2 hv
        simp [blob, hv0, hcfg, hr, ha, hE, hRP, hv]
    · intro e hE hRP
      refine ⟨?_, ?_⟩ <;> simp [blob, hv0, hcfg, hr, ha, hE, hRP]

/-- Concrete manifest environment exercising the retry: cache miss, first
fetch fails with a retryable error, the namespace-less retry succeeds. -/
def menvRetry : ManifestEnv :=
  { menvStub with
    readResult := Except.error Err.notFound
    fetchWithNs := Except.error (Err.upstream 3)
    fetchWithoutNs := Except.ok ([9], "application/json".toList, none)
    retryPred := fun e =>
      match e with
      | Err.upstream 3 => true
      | _ => false }

/-- Witness for C5: on the concrete retry scenario, the handler returns the
result of the single namespace-less retry. -/
theorem C5_witness :
    manifest reqStub menvRetry =
      manifestAfterFetch (reqStub.storage_path (resolvedNsM reqStub menvRetry))
        menvRetry ([9], "application/json".toList, none)
        (missTraceM reqStub menvRetry ++
          [Event.fetchManifest (resolvedImgM reqStub menvRetry)
            reqStub.reference none]) :=
  ((C5_retry_without_namespace.1 reqStub menvRetry ⟨300, 600⟩ Err.notFound
      rfl rfl rfl).2.1 (Err.upstream 3) rfl rfl).1
    ([9], "application/json".toList, none) rfl

/-- Witness for C9: the storage key of a concrete well-formed digest. -/
theorem C9_witness :
    BlobRequest.storage_path ⟨[], "sha256".toList ++ ':' :: List.replicate 64 'a'⟩ =
      "blobs/".toList ++ "sha256".toList ++ '/' :: (List.replicate 64 'a').take 2 ++
        '/' :: (List.replicate 64 'a').drop 2 :=
  C9_blob_storage_path.2.1 ("sha256".toList) (List.replicate 64 'a')
    (by decide) (by decide)
